import Mathlib

/-!
# Verification of the cold-compress cache-management controller

A shallow embedding of the KV-cache controller code in `model.py` of the
cold-compress repository, together with proofs of the specified properties.

Conventions:
* Python `int` is embedded as `Int`; Python `%` on a positive divisor agrees
  with `Int.emod` (Lean's `%` on `Int`), and Python `//` is `Int.fdiv`.
* Tensors are abstracted as values of an arbitrary type `τ`; the external
  numeric collaborators (the KV cache, the prompt compressor and the numeric
  attention kernel, which live outside `model.py`) are abstracted as opaque
  function parameters, or modelled from the spec where noted.
* Each controller method is embedded as a pure Lean function; calls into the
  external collaborators are additionally recorded in an event trace so that
  ordering properties ("exactly one admission before the attention call")
  become statements about the trace.
-/

namespace ColdCompress

/-! ## `find_multiple` (model.py, lines 21-24) -/

/-- Embedding of `find_multiple(n, k)`: `if n % k == 0: return n;
return n + k - (n % k)`.  Python `%` agrees with `Int.emod` for a
positive divisor. -/
def find_multiple (n k : Int) : Int :=
  if n % k = 0 then n else n + k - n % k

/-! ## `ModelArgs` and `__post_init__` (model.py, lines 27-50) -/

/-- Embedding of the `ModelArgs` dataclass (integer- and boolean-valued
fields; the floating-point fields `rope_base`, `norm_eps` and the
`rope_scaling` dict play no role in the claims and carry no integer
structure, so they are omitted). -/
structure ModelArgs where
  block_size : Int := 4000
  vocab_size : Int := 32000
  n_layer : Int := 32
  n_head : Int := 32
  dim : Int := 4096
  intermediate_size : Option Int := none
  n_local_heads : Int := -1
  head_dim : Int := 64
  attention_bias : Bool := false
  max_length : Int := 4096
deriving DecidableEq

/-- Embedding of `ModelArgs.__post_init__`.  The statement
`int(2 * hidden_dim / 3)` (true division then truncation toward zero) is
embedded as exact truncated integer division `Int.tdiv`. -/
def ModelArgs.post_init (a : ModelArgs) : ModelArgs :=
  let a1 := if a.n_local_heads = -1 then { a with n_local_heads := a.n_head } else a
  let a2 :=
    match a1.intermediate_size with
    | none =>
      let hidden_dim := 4 * a1.dim
      let n_hidden := Int.tdiv (2 * hidden_dim) 3
      { a1 with intermediate_size := some (find_multiple n_hidden 256) }
    | some _ => a1
  { a2 with head_dim := Int.fdiv a2.dim a2.n_head }

/-! ## Per-layer cache state

The cache implementation itself (`cache.py`) is an external collaborator of
`model.py`; `model.py` only calls `reset()`, `compute_statistics(...)`,
`update_kv(...)`, `update_state(...)`, `return_attn()` and reads
`max_cache_length`.  We model the state those calls touch from the spec. -/

/-- Modelled from the spec: the mutable state of one layer's KV cache
(`cache.py` is not part of the reviewed source).  Per the spec's data model,
a cache holds a fixed capacity `max_cache_length`, a validity mask over the
slots, per-slot positional bookkeeping and policy auxiliary scores, plus
the immutable configuration (head count and per-entry size) that memory
accounting is derived from. -/
structure KVCacheState where
  max_cache_length : Nat
  n_heads : Nat
  bytes_per_entry : ℚ
  valid : List Bool
  pos : List Nat
  score : List ℚ
deriving DecidableEq

/-- Occupied-slot count: the number of `true` entries of the validity mask. -/
def cacheOccupancy (c : KVCacheState) : Nat := c.valid.count true

/-- Modelled from the spec: `reset()` of one layer's cache (`cache.py` is
not part of the reviewed source): "cleared to empty, validity mask
all-false"; policy auxiliary state is cleared as well. -/
def resetCache (c : KVCacheState) : KVCacheState :=
  { c with
    valid := List.replicate c.max_cache_length false
    pos := List.replicate c.max_cache_length 0
    score := List.replicate c.max_cache_length 0 }

/-- Embedding of `Transformer.reset_caches` (model.py, lines 241-243):
`for layer in self.layers: layer.attention.kv_cache.reset()`. -/
def reset_caches (m : List KVCacheState) : List KVCacheState :=
  m.map resetCache

/-- Embedding of `Transformer.prompt_cache_overflow` (model.py, lines
245-249): `[prompt_length > layer.attention.kv_cache.max_cache_length for
layer in self.layers]`. -/
def prompt_cache_overflow (m : List KVCacheState) (prompt_length : Int) :
    List Bool :=
  m.map (fun c => decide ((c.max_cache_length : Int) < prompt_length))

/-- Embedding of `Transformer.min_cache_length` (model.py, lines 271-272):
`min([layer.attention.kv_cache.max_cache_length for layer in self.layers])`
(Python `min` of an empty list raises, hence the `Option`). -/
def min_cache_length (m : List KVCacheState) : Option Nat :=
  (m.map (fun c => c.max_cache_length)).min?

end ColdCompress

namespace ColdCompress

/-! ## Claim C9: `find_multiple` -/

/-- Claim C9: For all positive integers `n` and `k`, `find_multiple n k` is
the smallest multiple of `k` that is greater than or equal to `n`, and it
equals `n` exactly when `k` divides `n`. -/
theorem find_multiple_least (n k : Int) (hn : 0 < n) (hk : 0 < k) :
    (k ∣ find_multiple n k ∧ n ≤ find_multiple n k ∧
      ∀ m : Int, k ∣ m → n ≤ m → find_multiple n k ≤ m) ∧
    (find_multiple n k = n ↔ k ∣ n) := by
  have hk0 : k ≠ 0 := ne_of_gt hk
  have hmod : n % k = n - k * (n / k) := by
    have := Int.ediv_add_emod n k
    omega
  have hmodlt : n % k < k := Int.emod_lt_of_pos n hk
  have hmodge : 0 ≤ n % k := Int.emod_nonneg n hk0
  by_cases h : n % k = 0
  · have hdvd : k ∣ n := Int.dvd_of_emod_eq_zero h
    refine ⟨⟨?_, ?_, ?_⟩, ?_⟩
    · simpa [find_multiple, h] using hdvd
    · simp [find_multiple, h]
    · intro m _ hm; simpa [find_multiple, h] using hm
    · simp [find_multiple, h, hdvd]
  · have hres : find_multiple n k = k * (n / k) + k := by
      simp only [find_multiple, if_neg h]
      omega
    have hdvd : k ∣ find_multiple n k := by
      rw [hres]
      exact Dvd.dvd.add (Dvd.intro _ rfl) (dvd_refl k)
    refine ⟨⟨hdvd, ?_, ?_⟩, ?_⟩
    · omega
    · intro m hm hnm
      obtain ⟨t, ht⟩ := hm
      have h1 : k * (n / k) < m := by omega
      have h2 : n / k < t := by
        by_contra hco
        push_neg at hco
        have : k * t ≤ k * (n / k) := by
          exact mul_le_mul_of_nonneg_left hco (le_of_lt hk)
        omega
      have : k * (n / k + 1) ≤ k * t := by
        have := (mul_le_mul_left hk).mpr h2
        nlinarith
      rw [hres, ht]
      nlinarith
    · constructor
      · intro he
        rw [← he]
        exact hdvd
      · intro hdn
        exact absurd (Int.emod_eq_zero_of_dvd hdn) h

/-- Witness for C9 at `n = 10`, `k = 4` (`find_multiple 10 4 = 12`). -/
theorem find_multiple_least_witness :
    (0 : Int) < 10 ∧ (0 : Int) < 4 ∧ find_multiple 10 4 = 12 ∧
      (4 : Int) ∣ find_multiple 10 4 := by
  refine ⟨by decide, by decide, by decide, ?_⟩
  exact (find_multiple_least 10 4 (by decide) (by decide)).1.1

/-! ## Claim C10: `ModelArgs.__post_init__` -/

/-- Claim C10: After `__post_init__`, `head_dim` equals `dim // n_head`
regardless of the `head_dim` value supplied by the caller, and
`n_local_heads` equals `n_head` whenever the supplied `n_local_heads` was
`-1` (hypothesis `n_head ≠ 0`: with `n_head = 0` the Python code raises
`ZeroDivisionError` and no object is constructed). -/
theorem post_init_fields (a : ModelArgs) (h : a.n_head ≠ 0) :
    a.post_init.head_dim = Int.fdiv a.dim a.n_head ∧
      (a.n_local_heads = -1 → a.post_init.n_local_heads = a.n_head) := by
  constructor
  · by_cases h1 : a.n_local_heads = -1 <;> cases h2 : a.intermediate_size <;>
      simp [ModelArgs.post_init, h1, h2]
  · intro h1
    cases h2 : a.intermediate_size <;> simp [ModelArgs.post_init, h1, h2]

/-- Witness for C10: the default-constructed `ModelArgs` (with
`head_dim := 64` supplied, `dim = 4096`, `n_head = 32`,
`n_local_heads = -1`) ends up with `head_dim = 128` and
`n_local_heads = 32`. -/
theorem post_init_fields_witness :
    ({} : ModelArgs).post_init.head_dim = 128 ∧
      ({} : ModelArgs).post_init.n_local_heads = 32 := by
  have h := post_init_fields {} (by decide)
  exact ⟨by rw [h.1]; decide, by rw [h.2 (by decide)]⟩

/-! ## Claim C6: `prompt_cache_overflow` -/

/-- Claim C6: For every integer `prompt_length` and every model state, the
overflow query returns, for each layer, `true` if and only if
`prompt_length` strictly exceeds that layer's configured capacity. -/
theorem prompt_cache_overflow_iff (m : List KVCacheState) (p : Int)
    (i : Nat) (h : i < (prompt_cache_overflow m p).length) :
    (prompt_cache_overflow m p).get ⟨i, h⟩ = true ↔
      ((m.get ⟨i, by simpa [prompt_cache_overflow] using h⟩).max_cache_length : Int) < p := by
  simp [prompt_cache_overflow]

/-- Witness for C6 on a two-layer model with capacities 4 and 10 at
`prompt_length = 7`: layer 0 overflows, layer 1 does not. -/
theorem prompt_cache_overflow_iff_witness :
    (prompt_cache_overflow
        [⟨4, 1, 1, [], [], []⟩, ⟨10, 1, 1, [], [], []⟩] 7).get ⟨0, by decide⟩ = true ∧
    ((4 : Nat) : Int) < 7 := by
  constructor
  · exact (prompt_cache_overflow_iff
      [⟨4, 1, 1, [], [], []⟩, ⟨10, 1, 1, [], [], []⟩] 7 0 (by decide)).mpr (by decide)
  · decide

/-! ## The attention controller (`Attention.forward`, model.py lines 361-438)

Tensors are abstracted as values of a type `τ`.  The external collaborators
called by the controller are collected in `AttnEnv`; each call the controller
makes into a collaborator that can observe or mutate cache state is recorded
as an `Event`, so that call-ordering claims become claims about the produced
trace. -/

/-- The external collaborators of `Attention.forward`, abstracted as opaque
functions on tensor values:
* `max_cache_length`, `return_attn`: the cache's capacity and its
  `return_attn()` capability flag;
* `numel`: `input_pos.shape[0]` (the length of a positions-tensor);
* `update_kv`: the value `(k, v, kv_mask)` returned by
  `kv_cache.update_kv(input_pos, k, v, is_prefill, input_ids=...)`;
* `prompt_compressor`: the value returned by
  `self.prompt_compressor(input_pos, k_val, v_val, attn=...)`;
* `sdpa_y` / `sdpa_w`: the attention output and (when requested) the
  attention-weight matrix of `scaled_dot_product_attention`;
* `rep`: `repeat_interleave(self.n_head // self.n_local_heads, dim=1)`;
* `mean_pool`: the `view(...).mean(dim=2)` grouped-query pooling of the
  weight matrix (model.py lines 422-424);
* `wo`: the output projection `self.wo` composed with the
  transpose/contiguous/view reshaping (model.py lines 435-437). -/
structure AttnEnv (τ : Type) where
  max_cache_length : Nat
  return_attn : Bool
  numel : τ → Nat
  update_kv : τ → τ → τ → Bool → τ → τ × τ × τ
  prompt_compressor : τ → τ → τ → Option τ → τ × τ × τ × Option τ
  sdpa_y : τ → τ → τ → Option τ → τ
  sdpa_w : τ → τ → τ → Option τ → τ
  rep : τ → τ
  mean_pool : τ → τ
  wo : τ → τ

/-- One call made by the controller into an external collaborator, in the
order the calls happen.  `updateKV pos k v is_pf ids` records a
`kv_cache.update_kv` call, `sdpa q k v mask flag` the numeric attention
call (with the merged attention mask and the `return_attn` flag it was
passed), `compress pos k v attn` a prompt-compressor invocation, and
`updateState pos k v is_pf attn ids` the final `kv_cache.update_state`
call. -/
inductive Event (τ : Type) where
  | updateKV (pos k v : τ) (is_pf : Bool) (ids : τ)
  | sdpa (q k v : τ) (mask : Option τ) (flag : Bool)
  | compress (pos k v : τ) (attn : Option τ)
  | updateState (pos k v : τ) (is_pf : Bool) (attn : Option τ) (ids : τ)
deriving DecidableEq

/-- Modelled from the spec: `scaled_dot_product_attention`
(`attention_utils.py` is not part of the reviewed source).  Per the spec,
the numeric layer checks the capability flag to decide whether to compute
and return the weight matrix at all, so the weight component is `some`
exactly when the flag is set. -/
def scaled_dot_product_attention (env : AttnEnv τ) (q k v : τ)
    (attn_mask : Option τ) (want_attn : Bool) : τ × Option τ :=
  (env.sdpa_y q k v attn_mask,
    if want_attn then some (env.sdpa_w q k v attn_mask) else none)

/-- Embedding of `Attention.compress_prompt` (model.py, lines 361-367),
additionally returning the list of compressor invocations it performs:
`seq_len = input_pos.shape[0]; if self.kv_cache.max_cache_length < seq_len:
return self.prompt_compressor(input_pos, k_val, v_val, attn=attn);
return input_pos, k_val, v_val, attn`. -/
def compress_prompt (env : AttnEnv τ) (input_pos k_val v_val : τ)
    (attn : Option τ) : (τ × τ × τ × Option τ) × List (Event τ) :=
  let seq_len := env.numel input_pos
  if env.max_cache_length < seq_len then
    (env.prompt_compressor input_pos k_val v_val attn,
      [Event.compress input_pos k_val v_val attn])
  else
    ((input_pos, k_val, v_val, attn), [])

/-- The observable outcome of one `Attention.forward` call: the layer
output `y`, the final (possibly pooled, possibly compressed) attention
weights, and the trace of collaborator calls. -/
structure ForwardResult (τ : Type) where
  y : τ
  attn : Option τ
  trace : List (Event τ)
deriving DecidableEq

/-- Embedding of the cache-facing part of `Attention.forward` (model.py,
lines 395-437).  The arguments `q`, `k`, `v` stand for the projected and
rotary-embedded tensors of lines 379-393 (neural glue that is out of scope
per the spec); `input_ids` is the extra tensor threaded through
`cache_kwargs`.  The function mirrors the source statement by statement:
decode-time `update_kv` (lines 397-403), query-group expansion (405-406),
the numeric attention call (408-417), grouped-query mean pooling
(419-424), the prefill compress-then-admit path (426-429), and the final
`update_state` (433). -/
def attentionForward (env : AttnEnv τ) (q k v input_ids : τ)
    (mask : Option τ) (is_pf : Bool) (input_pos : τ) : ForwardResult τ :=
  let step1 : τ × τ × Option τ × List (Event τ) :=
    if is_pf then (k, v, none, [])
    else
      let r := env.update_kv input_pos k v is_pf input_ids
      (r.1, r.2.1, some (env.rep r.2.2),
        [Event.updateKV input_pos k v is_pf input_ids])
  let k1 := step1.1
  let v1 := step1.2.1
  let kv_mask := step1.2.2.1
  let tr1 := step1.2.2.2
  let k_rep := env.rep k1
  let v_rep := env.rep v1
  let attn_mask := match mask with
    | none => kv_mask
    | some m => some m
  let ya := scaled_dot_product_attention env q k_rep v_rep attn_mask env.return_attn
  let tr2 := tr1 ++ [Event.sdpa q k_rep v_rep attn_mask env.return_attn]
  let attn1 := ya.2.map env.mean_pool
  let step3 : τ × τ × τ × Option τ × List (Event τ) :=
    if is_pf then
      let cp := compress_prompt env input_pos k1 v1 attn1
      (cp.1.1, cp.1.2.1, cp.1.2.2.1, cp.1.2.2.2,
        tr2 ++ cp.2 ++
          [Event.updateKV cp.1.1 cp.1.2.1 cp.1.2.2.1 is_pf input_ids])
    else
      (input_pos, k1, v1, attn1, tr2)
  { y := env.wo ya.1
    attn := step3.2.2.2.1
    trace := step3.2.2.2.2 ++
      [Event.updateState step3.1 step3.2.1 step3.2.2.1 is_pf step3.2.2.2.1 input_ids] }

end ColdCompress

namespace ColdCompress

/-! ## Claim C1: decode steps admit exactly one entry, then attend under
the returned validity mask -/

/-- Claim C1: For every decode (non-prefill) forward step (decode callers
pass no explicit attention mask, so `mask = none`), the trace is exactly:
one `update_kv` admission of the single new key/value entry, then the
numeric attention call over the returned key/value subset (expanded across
grouped query heads by `rep`) under the returned boolean validity mask
(likewise expanded and merged in as the attention mask), then the final
`update_state`.  In particular `update_kv` is called exactly once and
before the attention computation. -/
theorem decode_single_admission (τ : Type) (env : AttnEnv τ)
    (q k v ids ip : τ) :
    (attentionForward env q k v ids none false ip).trace =
      [Event.updateKV ip k v false ids,
       Event.sdpa q (env.rep (env.update_kv ip k v false ids).1)
         (env.rep (env.update_kv ip k v false ids).2.1)
         (some (env.rep (env.update_kv ip k v false ids).2.2))
         env.return_attn,
       Event.updateState ip (env.update_kv ip k v false ids).1
         (env.update_kv ip k v false ids).2.1 false
         ((scaled_dot_product_attention env q
             (env.rep (env.update_kv ip k v false ids).1)
             (env.rep (env.update_kv ip k v false ids).2.1)
             (some (env.rep (env.update_kv ip k v false ids).2.2))
             env.return_attn).2.map env.mean_pool) ids] := by
  rfl

/-! ## Claim C2: `compress_prompt` short-circuits at or below capacity -/

/-- Claim C2: `compress_prompt` invokes the prompt compressor if and only if
the prompt length strictly exceeds the layer's `max_cache_length`; whenever
the prompt length is at most the capacity it returns the input positions,
keys, values and attention unchanged and invokes no compressor. -/
theorem compress_prompt_short_circuit (τ : Type) (env : AttnEnv τ)
    (ip k_val v_val : τ) (attn : Option τ) :
    ((compress_prompt env ip k_val v_val attn).2 ≠ [] ↔
      env.max_cache_length < env.numel ip) ∧
    (env.numel ip ≤ env.max_cache_length →
      (compress_prompt env ip k_val v_val attn).1 = (ip, k_val, v_val, attn) ∧
        (compress_prompt env ip k_val v_val attn).2 = []) := by
  constructor
  · by_cases h : env.max_cache_length < env.numel ip <;>
      simp [compress_prompt, h]
  · intro h
    have h' : ¬ env.max_cache_length < env.numel ip := not_lt.mpr h
    simp [compress_prompt, h']

/-- Witness for C2: a capacity-8 layer with a length-5 prompt performs no
compressor call and passes its arguments through unchanged. -/
theorem compress_prompt_short_circuit_witness :
    (compress_prompt
        (⟨8, false, fun n => n, fun _ _ _ _ _ => (0, 0, 0),
          fun _ _ _ _ => (0, 0, 0, none), fun _ _ _ _ => 0, fun _ _ _ _ => 0,
          id, id, id⟩ : AttnEnv Nat) 5 1 2 none).1 = (5, 1, 2, none) := by
  exact ((compress_prompt_short_circuit Nat
    ⟨8, false, fun n => n, fun _ _ _ _ _ => (0, 0, 0),
      fun _ _ _ _ => (0, 0, 0, none), fun _ _ _ _ => 0, fun _ _ _ _ => 0,
      id, id, id⟩ 5 1 2 none).2 (by decide)).1

/-! ## Claim C3: prefill compresses first, then admits only the reduced
output -/

/-- The (possibly absent) grouped-query-pooled attention weights available
after the numeric attention call of a prefill step (model.py lines
408-424, with `kv_mask = None`). -/
def pooledAttn (env : AttnEnv τ) (q k v : τ) (mask : Option τ) : Option τ :=
  (scaled_dot_product_attention env q (env.rep k) (env.rep v) mask
      env.return_attn).2.map env.mean_pool

/-- Helper (shared by the claim proofs): the collaborator-call trace of a
prefill `Attention.forward` call, by cases on prompt overflow. -/
theorem attentionForward_trace_prefill (env : AttnEnv τ) (q k v ids ip : τ)
    (mask : Option τ) :
    (attentionForward env q k v ids mask true ip).trace =
      (if env.max_cache_length < env.numel ip then
        [Event.sdpa q (env.rep k) (env.rep v) mask env.return_attn,
         Event.compress ip k v (pooledAttn env q k v mask),
         Event.updateKV (env.prompt_compressor ip k v (pooledAttn env q k v mask)).1
           (env.prompt_compressor ip k v (pooledAttn env q k v mask)).2.1
           (env.prompt_compressor ip k v (pooledAttn env q k v mask)).2.2.1 true ids,
         Event.updateState (env.prompt_compressor ip k v (pooledAttn env q k v mask)).1
           (env.prompt_compressor ip k v (pooledAttn env q k v mask)).2.1
           (env.prompt_compressor ip k v (pooledAttn env q k v mask)).2.2.1 true
           (env.prompt_compressor ip k v (pooledAttn env q k v mask)).2.2.2 ids]
      else
        [Event.sdpa q (env.rep k) (env.rep v) mask env.return_attn,
         Event.updateKV ip k v true ids,
         Event.updateState ip k v true (pooledAttn env q k v mask) ids]) := by
  cases mask <;> by_cases hov : env.max_cache_length < env.numel ip <;>
    simp [attentionForward, compress_prompt, pooledAttn, hov]

/-- Helper (shared by the claim proofs): the collaborator-call trace of a
decode `Attention.forward` call. -/
theorem attentionForward_trace_decode (env : AttnEnv τ) (q k v ids ip : τ) :
    (attentionForward env q k v ids none false ip).trace =
      [Event.updateKV ip k v false ids,
       Event.sdpa q (env.rep (env.update_kv ip k v false ids).1)
         (env.rep (env.update_kv ip k v false ids).2.1)
         (some (env.rep (env.update_kv ip k v false ids).2.2))
         env.return_attn,
       Event.updateState ip (env.update_kv ip k v false ids).1
         (env.update_kv ip k v false ids).2.1 false
         ((scaled_dot_product_attention env q
             (env.rep (env.update_kv ip k v false ids).1)
             (env.rep (env.update_kv ip k v false ids).2.1)
             (some (env.rep (env.update_kv ip k v false ids).2.2))
             env.return_attn).2.map env.mean_pool) ids] := by
  rfl

/-- Claim C3: For every prefill step, the trace is exactly: the numeric
attention call over the (expanded) full prompt keys/values, then — when
the prompt exceeds capacity — a prompt-compressor call on the full
prompt's positions, keys and values, then a single `update_kv` admission
of exactly `compress_prompt`'s output (the compressor's reduced output
when the prompt exceeds capacity, as the second conjunct states), then
`update_state`.  The cache is never handed the uncompressed prompt when
the compressor runs: the only `update_kv` of the trace receives the first
component of `compress_prompt`. -/
theorem prefill_compresses_before_update_kv (τ : Type) (env : AttnEnv τ)
    (q k v ids ip : τ) (mask : Option τ) :
    (attentionForward env q k v ids mask true ip).trace =
      [Event.sdpa q (env.rep k) (env.rep v) mask env.return_attn]
      ++ (compress_prompt env ip k v (pooledAttn env q k v mask)).2
      ++ [Event.updateKV
            (compress_prompt env ip k v (pooledAttn env q k v mask)).1.1
            (compress_prompt env ip k v (pooledAttn env q k v mask)).1.2.1
            (compress_prompt env ip k v (pooledAttn env q k v mask)).1.2.2.1
            true ids,
          Event.updateState
            (compress_prompt env ip k v (pooledAttn env q k v mask)).1.1
            (compress_prompt env ip k v (pooledAttn env q k v mask)).1.2.1
            (compress_prompt env ip k v (pooledAttn env q k v mask)).1.2.2.1
            true
            (compress_prompt env ip k v (pooledAttn env q k v mask)).1.2.2.2
            ids] ∧
    (env.max_cache_length < env.numel ip →
      (compress_prompt env ip k v (pooledAttn env q k v mask)).1 =
        env.prompt_compressor ip k v (pooledAttn env q k v mask) ∧
      (compress_prompt env ip k v (pooledAttn env q k v mask)).2 =
        [Event.compress ip k v (pooledAttn env q k v mask)]) := by
  constructor
  · rw [attentionForward_trace_prefill]
    by_cases hov : env.max_cache_length < env.numel ip <;>
      simp [compress_prompt, hov]
  · intro h
    constructor <;> simp [compress_prompt, h]

/-- Witness for C3 (discharging the overflow hypothesis): a capacity-2
layer with a length-5 prompt; the compressor is invoked and its output is
what `compress_prompt` returns. -/
theorem prefill_compresses_before_update_kv_witness :
    (compress_prompt
        (⟨2, false, fun n => n, fun _ _ _ _ _ => (0, 0, 0),
          fun _ _ _ _ => (9, 8, 7, none), fun _ _ _ _ => 0, fun _ _ _ _ => 0,
          id, id, id⟩ : AttnEnv Nat) 5 1 2
        (pooledAttn
          (⟨2, false, fun n => n, fun _ _ _ _ _ => (0, 0, 0),
            fun _ _ _ _ => (9, 8, 7, none), fun _ _ _ _ => 0, fun _ _ _ _ => 0,
            id, id, id⟩ : AttnEnv Nat) 3 1 2 none)).1 =
      (9, 8, 7, none) := by
  exact ((prefill_compresses_before_update_kv Nat
    ⟨2, false, fun n => n, fun _ _ _ _ _ => (0, 0, 0),
      fun _ _ _ _ => (9, 8, 7, none), fun _ _ _ _ => 0, fun _ _ _ _ => 0,
      id, id, id⟩ 3 1 2 0 5 none).2 (by decide)).1

/-! ## Claim C4: the `return_attn` capability flag gates attention
weights -/

/-- Returns `true` when the event is a compressor or `update_state` call
carrying attention weights. -/
def Event.usesAttnWeights : Event τ → Bool
  | .compress _ _ _ a => a.isSome
  | .updateState _ _ _ _ a _ => a.isSome
  | _ => false

/-- Returns `true` unless the event is a numeric attention call whose
weights-requested flag differs from `b`. -/
def Event.sdpaFlagIs (b : Bool) : Event τ → Bool
  | .sdpa _ _ _ _ b' => b == b'
  | _ => true

/-- Claim C4: The numeric attention call computes and returns a weight
matrix if and only if the flag it is passed is set; the controller always
passes it the cache's `return_attn()` flag; and when that flag is false,
no event of the forward trace — in particular neither the prompt
compressor nor the final `update_state` call — carries attention weights
(they receive `attn = none`).  Hypothesis `hcomp` is modelled from the
spec: `prompt_compression.py` is not part of the reviewed source, and per
the spec the attention-scores path is suppressed entirely for variants
that do not need it, so a compressor handed no attention weights returns
none (its fourth output is the filtered weights). -/
theorem return_attn_gates_weights (τ : Type) (env : AttnEnv τ)
    (hcomp : ∀ p kk vv : τ, (env.prompt_compressor p kk vv none).2.2.2 = none)
    (q k v ids ip : τ) (mask : Option τ) (is_pf : Bool) :
    ((scaled_dot_product_attention env q k v mask env.return_attn).2.isSome =
      env.return_attn) ∧
    (∀ e ∈ (attentionForward env q k v ids mask is_pf ip).trace,
      Event.sdpaFlagIs env.return_attn e = true) ∧
    (env.return_attn = false →
      ∀ e ∈ (attentionForward env q k v ids mask is_pf ip).trace,
        Event.usesAttnWeights e = false) := by
  have hdec : ∀ e ∈ (attentionForward env q k v ids mask false ip).trace,
      Event.sdpaFlagIs env.return_attn e = true ∧
        (env.return_attn = false → Event.usesAttnWeights e = false) := by
    intro e he
    cases mask with
    | none =>
      rw [attentionForward_trace_decode] at he
      simp only [List.mem_cons, List.not_mem_nil, or_false] at he
      rcases he with rfl | rfl | rfl <;>
        exact ⟨by simp [Event.sdpaFlagIs], by
          intro hf
          simp [Event.usesAttnWeights, scaled_dot_product_attention, hf]⟩
    | some m =>
      simp [attentionForward, List.mem_cons] at he
      rcases he with rfl | rfl | rfl <;>
        exact ⟨by simp [Event.sdpaFlagIs], by
          intro hf
          simp [Event.usesAttnWeights, scaled_dot_product_attention, hf]⟩
  have hpre : ∀ e ∈ (attentionForward env q k v ids mask true ip).trace,
      Event.sdpaFlagIs env.return_attn e = true ∧
        (env.return_attn = false → Event.usesAttnWeights e = false) := by
    intro e he
    rw [attentionForward_trace_prefill] at he
    by_cases hov : env.max_cache_length < env.numel ip
    · rw [if_pos hov] at he
      simp only [List.mem_cons, List.not_mem_nil, or_false] at he
      rcases he with rfl | rfl | rfl | rfl <;>
        exact ⟨by simp [Event.sdpaFlagIs], by
          intro hf
          simp [Event.usesAttnWeights, pooledAttn,
            scaled_dot_product_attention, hf, hcomp]⟩
    · rw [if_neg hov] at he
      simp only [List.mem_cons, List.not_mem_nil, or_false] at he
      rcases he with rfl | rfl | rfl <;>
        exact ⟨by simp [Event.sdpaFlagIs], by
          intro hf
          simp [Event.usesAttnWeights, pooledAttn,
            scaled_dot_product_attention, hf]⟩
  refine ⟨?_, ?_, ?_⟩
  · cases h : env.return_attn <;> simp [scaled_dot_product_attention, h]
  · intro e he
    cases is_pf
    · exact (hdec e he).1
    · exact (hpre e he).1
  · intro hf e he
    cases is_pf
    · exact (hdec e he).2 hf
    · exact (hpre e he).2 hf

/-- Witness for C4: a concrete environment with `return_attn = false` on a
decode step; every trace event is weight-free, and every sdpa event
carries the flag `false`. -/
theorem return_attn_gates_weights_witness :
    ((attentionForward
        (⟨2, false, fun n => n, fun _ _ _ _ _ => (0, 0, 0),
          fun _ _ _ _ => (9, 8, 7, none), fun _ _ _ _ => 0, fun _ _ _ _ => 0,
          id, id, id⟩ : AttnEnv Nat) 3 1 2 0 none false 5).trace.all
      (fun e => ! Event.usesAttnWeights e)) = true ∧
    ((attentionForward
        (⟨2, false, fun n => n, fun _ _ _ _ _ => (0, 0, 0),
          fun _ _ _ _ => (9, 8, 7, none), fun _ _ _ _ => 0, fun _ _ _ _ => 0,
          id, id, id⟩ : AttnEnv Nat) 3 1 2 0 none false 5).trace.all
      (Event.sdpaFlagIs false)) = true := by
  have h := return_attn_gates_weights Nat
    ⟨2, false, fun n => n, fun _ _ _ _ _ => (0, 0, 0),
      fun _ _ _ _ => (9, 8, 7, none), fun _ _ _ _ => 0, fun _ _ _ _ => 0,
      id, id, id⟩ (fun _ _ _ => rfl) 3 1 2 0 5 none false
  constructor
  · exact List.all_eq_true.mpr (fun e he => by simp [h.2.2 rfl e he])
  · exact List.all_eq_true.mpr (fun e he => h.2.1 e he)

end ColdCompress

namespace ColdCompress

/-! ## `Transformer.get_cache_stats` (model.py, lines 251-269)

The per-layer dictionary returned by `kv_cache.compute_statistics` is an
association list with `String` keys; the aggregated dictionary built by
`get_cache_stats` uses Python f-string keys `f"{k}_{layer_idx}"`,
`f"{k}_avg"` and the plain key `"cache_memory_gb"`.  Since a decimal layer
index never renders as the literal suffix `avg` and the plain key carries
no suffix, that rendering is injective on the keys this function creates,
and we model the rendered key space by the structured type `StatKey`. -/

/-- A key of the aggregated statistics dictionary: `layer k i` stands for
the f-string `k + "_" + toString i`, `avg k` for `k + "_avg"`, and
`plain k` for the bare string `k`. -/
inductive StatKey where
  | layer (name : String) (idx : Nat)
  | avg (name : String)
  | plain (name : String)
deriving DecidableEq

/-- Python dictionary assignment `d[key] = v`: overwrite if the key is
present, else append (insertion order preserved). -/
def dictSet (d : List (StatKey × ℚ)) (key : StatKey) (v : ℚ) :
    List (StatKey × ℚ) :=
  if (d.lookup key).isSome then
    d.map (fun p => if p.1 = key then (p.1, v) else p)
  else d ++ [(key, v)]

/-- The `defaultdict(list)` update `avgs[k].append(v)`: append `v` to the
entry of `k`, creating `[v]` if absent. -/
def avgsAppend (a : List (String × List ℚ)) (k : String) (v : ℚ) :
    List (String × List ℚ) :=
  if (a.lookup k).isSome then
    a.map (fun p => if p.1 = k then (p.1, p.2 ++ [v]) else p)
  else a ++ [(k, [v])]

/-- Python `stat.pop(key)`: the looked-up value (or `none`, in which case
Python raises `KeyError`) together with the dictionary with that key
removed. -/
def popKey (d : List (String × ℚ)) (k : String) :
    Option ℚ × List (String × ℚ) :=
  (d.lookup k, d.filter (fun p => p.1 ≠ k))

/-- The occupied-slot count as a rational. -/
def sizeQ (c : KVCacheState) : ℚ := (cacheOccupancy c : ℚ)

/-- The configured capacity as a rational. -/
def capQ (c : KVCacheState) : ℚ := (c.max_cache_length : ℚ)

/-- The estimated memory footprint of a layer's cache: live entries times
per-entry size times head count (zero for an empty cache). -/
def memQ (c : KVCacheState) : ℚ :=
  sizeQ c * c.bytes_per_entry * (c.n_heads : ℚ)

/-- Modelled from the spec: `kv_cache.compute_statistics(seq_len=...)`
(`cache.py` is not part of the reviewed source).  Per the spec it reports,
per layer, at minimum the current occupied-slot count, the configured
capacity and the estimated memory footprint (under the key
`"cache_memory_gb"`, the name `get_cache_stats` pops); it "never fails;
it returns zeros for an empty cache".  The sequence length passed by the
controller does not enter these minimum fields. -/
def compute_statistics_assoc (seq_len : Nat) (c : KVCacheState) :
    List (String × ℚ) :=
  [("size", sizeQ c), ("capacity", capQ c), ("cache_memory_gb", memQ c)]

/-- The inner loop `for k, v in stat.items(): stats[f"{k}_{layer_idx}"] = v;
avgs[k].append(v)` of `get_cache_stats`. -/
def itemsLoop (i : Nat) (items : List (String × ℚ))
    (stats : List (StatKey × ℚ)) (avgs : List (String × List ℚ)) :
    List (StatKey × ℚ) × List (String × List ℚ) :=
  match items with
  | [] => (stats, avgs)
  | (k, v) :: rest =>
    itemsLoop i rest (dictSet stats (StatKey.layer k i) v) (avgsAppend avgs k v)

/-- The outer loop of `get_cache_stats` over the layers: pop the layer's
`cache_memory_gb` into the running total (`none` if the key is absent —
Python would raise), then fold the remaining items into `stats` and
`avgs`. -/
def layersLoop (ds : List (List (String × ℚ))) (i : Nat)
    (stats : List (StatKey × ℚ)) (avgs : List (String × List ℚ)) (mem : ℚ) :
    Option (List (StatKey × ℚ) × List (String × List ℚ) × ℚ) :=
  match ds with
  | [] => some (stats, avgs, mem)
  | d :: rest =>
    match popKey d "cache_memory_gb" with
    | (none, _) => none
    | (some mval, items) =>
      let sa := itemsLoop i items stats avgs
      layersLoop rest (i + 1) sa.1 sa.2 (mem + mval)

/-- Embedding of `Transformer.get_cache_stats` (model.py, lines 251-269)
over the list of per-layer statistics dictionaries: runs the per-layer
loop from an empty `stats`/`avgs`/`mem_total`, then writes an `_avg` entry
`sum(v) / len(v)` for every accumulated statistic, then the total under
the plain key `"cache_memory_gb"`. -/
def get_cache_stats_core (ds : List (List (String × ℚ))) :
    Option (List (StatKey × ℚ)) :=
  match layersLoop ds 0 [] [] 0 with
  | none => none
  | some (stats, avgs, mem) =>
    some (dictSet
      (avgs.foldl
        (fun acc p => dictSet acc (StatKey.avg p.1) (p.2.sum / (p.2.length : ℚ)))
        stats)
      (StatKey.plain "cache_memory_gb") mem)

/-- Embedding of `Transformer.get_cache_stats` on a model state: each
layer's dictionary is produced by the (modelled) `compute_statistics` at
`seq_len = prompt_len + gen_len`. -/
def get_cache_stats (m : List KVCacheState) (prompt_len gen_len : Nat) :
    Option (List (StatKey × ℚ)) :=
  get_cache_stats_core (m.map (compute_statistics_assoc (prompt_len + gen_len)))

/-- Closed form of the per-layer entries accumulated by the outer loop
starting at layer index `i`. -/
def statEntries : List KVCacheState → Nat → List (StatKey × ℚ)
  | [], _ => []
  | c :: rest, i =>
    (StatKey.layer "size" i, sizeQ c) :: (StatKey.layer "capacity" i, capQ c)
      :: statEntries rest (i + 1)

/-- Closed form of the `avgs` accumulator after processing `ls`. -/
def avgsMergeAll (avgs : List (String × List ℚ)) :
    List KVCacheState → List (String × List ℚ)
  | [] => avgs
  | c :: rest =>
    avgsMergeAll (avgsAppend (avgsAppend avgs "size" (sizeQ c)) "capacity" (capQ c)) rest

end ColdCompress

namespace ColdCompress

/-! ### Association-list lemmas -/

theorem lookup_cons {α β : Type} [BEq α] (a k : α) (b : β)
    (es : List (α × β)) :
    List.lookup a ((k, b) :: es) = if a == k then some b else List.lookup a es := by
  cases h : a == k <;> simp [List.lookup, h]

theorem lookup_append_of_none {α β : Type} [BEq α] (l1 l2 : List (α × β))
    (a : α) (h : l1.lookup a = none) :
    (l1 ++ l2).lookup a = l2.lookup a := by
  induction l1 with
  | nil => simp
  | cons p rest ih =>
    rcases p with ⟨k, b⟩
    rw [lookup_cons] at h
    by_cases hk : (a == k) = true
    · rw [if_pos hk] at h
      cases h
    · rw [if_neg hk] at h
      rw [List.cons_append, lookup_cons, if_neg hk]
      exact ih h

theorem dictSet_of_not_mem (d : List (StatKey × ℚ)) (key : StatKey) (v : ℚ)
    (h : d.lookup key = none) : dictSet d key v = d ++ [(key, v)] := by
  simp [dictSet, h]

theorem popKey_stats (sl : Nat) (c : KVCacheState) :
    popKey (compute_statistics_assoc sl c) "cache_memory_gb" =
      (some (memQ c), [("size", sizeQ c), ("capacity", capQ c)]) := by
  simp [popKey, compute_statistics_assoc, List.lookup, List.filter]

end ColdCompress

namespace ColdCompress

/-! ### Closed forms for the `get_cache_stats` loops -/

theorem statEntries_lookup_avg (ls : List KVCacheState) (i : Nat)
    (name : String) :
    (statEntries ls i).lookup (StatKey.avg name) = none := by
  induction ls generalizing i with
  | nil => simp [statEntries]
  | cons c rest ih =>
    rw [statEntries, lookup_cons, if_neg (by simp), lookup_cons,
      if_neg (by simp)]
    exact ih (i + 1)

theorem statEntries_lookup_plain (ls : List KVCacheState) (i : Nat)
    (name : String) :
    (statEntries ls i).lookup (StatKey.plain name) = none := by
  induction ls generalizing i with
  | nil => simp [statEntries]
  | cons c rest ih =>
    rw [statEntries, lookup_cons, if_neg (by simp), lookup_cons,
      if_neg (by simp)]
    exact ih (i + 1)

theorem statEntries_lookup_lt (ls : List KVCacheState) (i j : Nat)
    (name : String) (h : j < i) :
    (statEntries ls i).lookup (StatKey.layer name j) = none := by
  induction ls generalizing i with
  | nil => simp [statEntries]
  | cons c rest ih =>
    rw [statEntries, lookup_cons, if_neg (by simp; try omega), lookup_cons,
      if_neg (by simp; try omega)]
    exact ih (i + 1) (by omega)

theorem statEntries_lookup_size (ls : List KVCacheState) (i j : Nat)
    (h : j < ls.length) :
    (statEntries ls i).lookup (StatKey.layer "size" (i + j)) =
      some (sizeQ (ls.get ⟨j, h⟩)) := by
  induction ls generalizing i j with
  | nil => simp at h
  | cons c rest ih =>
    cases j with
    | zero => rw [statEntries, lookup_cons, if_pos (by simp)]; rfl
    | succ j' =>
      rw [statEntries, lookup_cons, if_neg (by simp; try omega), lookup_cons,
        if_neg (by simp)]
      have := ih (i + 1) j' (by simpa using h)
      rw [show i + (j' + 1) = i + 1 + j' by omega]
      simpa using this

theorem statEntries_lookup_cap (ls : List KVCacheState) (i j : Nat)
    (h : j < ls.length) :
    (statEntries ls i).lookup (StatKey.layer "capacity" (i + j)) =
      some (capQ (ls.get ⟨j, h⟩)) := by
  induction ls generalizing i j with
  | nil => simp at h
  | cons c rest ih =>
    cases j with
    | zero =>
      rw [statEntries, lookup_cons, if_neg (by simp), lookup_cons,
        if_pos (by simp)]
      rfl
    | succ j' =>
      rw [statEntries, lookup_cons, if_neg (by simp), lookup_cons,
        if_neg (by simp; try omega)]
      have := ih (i + 1) j' (by simpa using h)
      rw [show i + (j' + 1) = i + 1 + j' by omega]
      simpa using this

theorem statEntries_lookup_memkey (ls : List KVCacheState) (i j : Nat) :
    (statEntries ls i).lookup (StatKey.layer "cache_memory_gb" j) = none := by
  induction ls generalizing i with
  | nil => simp [statEntries]
  | cons c rest ih =>
    rw [statEntries, lookup_cons, if_neg (by simp), lookup_cons,
      if_neg (by simp)]
    exact ih (i + 1)

theorem avgsMergeAll_pair (ls : List KVCacheState) (as bs : List ℚ) :
    avgsMergeAll [("size", as), ("capacity", bs)] ls =
      [("size", as ++ ls.map sizeQ), ("capacity", bs ++ ls.map capQ)] := by
  induction ls generalizing as bs with
  | nil => simp [avgsMergeAll]
  | cons c rest ih =>
    rw [avgsMergeAll]
    have h1 : avgsAppend [("size", as), ("capacity", bs)] "size" (sizeQ c) =
        [("size", as ++ [sizeQ c]), ("capacity", bs)] := by
      simp [avgsAppend, lookup_cons]
    have h2 : avgsAppend [("size", as ++ [sizeQ c]), ("capacity", bs)]
        "capacity" (capQ c) =
        [("size", as ++ [sizeQ c]), ("capacity", bs ++ [capQ c])] := by
      simp [avgsAppend, lookup_cons]
    rw [h1, h2, ih]
    simp

theorem avgsMergeAll_nil (ls : List KVCacheState) (h : ls ≠ []) :
    avgsMergeAll [] ls = [("size", ls.map sizeQ), ("capacity", ls.map capQ)] := by
  cases ls with
  | nil => exact absurd rfl h
  | cons c rest =>
    rw [avgsMergeAll]
    have h1 : avgsAppend [] "size" (sizeQ c) = [("size", [sizeQ c])] := by
      simp [avgsAppend]
    have h2 : avgsAppend [("size", [sizeQ c])] "capacity" (capQ c) =
        [("size", [sizeQ c]), ("capacity", [capQ c])] := by
      simp [avgsAppend, lookup_cons]
    rw [h1, h2, avgsMergeAll_pair]
    simp

/-- The outer loop of `get_cache_stats`, run over the modelled per-layer
dictionaries from accumulated state whose per-layer keys all lie below the
current index, appends exactly the per-layer entries, merges every
statistic into `avgs`, and adds up the popped memory figures. -/
theorem layersLoop_eq (sl : Nat) (ls : List KVCacheState) (i : Nat)
    (stats : List (StatKey × ℚ)) (avgs : List (String × List ℚ)) (mem : ℚ)
    (h : ∀ name j, i ≤ j → stats.lookup (StatKey.layer name j) = none) :
    layersLoop (ls.map (compute_statistics_assoc sl)) i stats avgs mem =
      some (stats ++ statEntries ls i, avgsMergeAll avgs ls,
        mem + (ls.map memQ).sum) := by
  induction ls generalizing i stats avgs mem with
  | nil => simp [layersLoop, statEntries, avgsMergeAll]
  | cons c rest ih =>
    simp only [List.map_cons, layersLoop, popKey_stats]
    have hstep :
        itemsLoop i [("size", sizeQ c), ("capacity", capQ c)] stats avgs =
          (stats ++ [(StatKey.layer "size" i, sizeQ c),
              (StatKey.layer "capacity" i, capQ c)],
            avgsAppend (avgsAppend avgs "size" (sizeQ c)) "capacity" (capQ c)) := by
      rw [itemsLoop, itemsLoop, itemsLoop,
        dictSet_of_not_mem _ _ _ (h "size" i le_rfl),
        dictSet_of_not_mem _ _ _ ?fresh]
      · simp
      case fresh =>
        rw [lookup_append_of_none _ _ _ (h "capacity" i le_rfl), lookup_cons,
          if_neg (by simp)]
        simp
    rw [hstep]
    have hfresh : ∀ name j, i + 1 ≤ j →
        (stats ++ [(StatKey.layer "size" i, sizeQ c),
            (StatKey.layer "capacity" i, capQ c)]).lookup
          (StatKey.layer name j) = none := by
      intro name j hj
      rw [lookup_append_of_none _ _ _ (h name j (by omega)), lookup_cons,
        if_neg (by simp; try omega), lookup_cons, if_neg (by simp; try omega)]
      simp
    rw [ih (i + 1) _ _ _ hfresh]
    rw [statEntries, avgsMergeAll]
    simp [List.append_assoc]
    ring

end ColdCompress

namespace ColdCompress

/-- The dictionary `get_cache_stats` produces on the modelled per-layer
statistics: per-layer entries for `size` and `capacity`, their averages
(when at least one layer exists), and the single memory total. -/
def finalStats (ls : List KVCacheState) : List (StatKey × ℚ) :=
  statEntries ls 0 ++
    ((if ls.isEmpty then [] else
      [(StatKey.avg "size", (ls.map sizeQ).sum / (ls.length : ℚ)),
       (StatKey.avg "capacity", (ls.map capQ).sum / (ls.length : ℚ))]) ++
    [(StatKey.plain "cache_memory_gb", (ls.map memQ).sum)])

theorem lookup_append_of_some {α β : Type} [BEq α] (l1 l2 : List (α × β))
    (a : α) (b : β) (h : l1.lookup a = some b) :
    (l1 ++ l2).lookup a = some b := by
  induction l1 with
  | nil => cases h
  | cons p rest ih =>
    rcases p with ⟨k, v⟩
    rw [lookup_cons] at h
    by_cases hk : (a == k) = true
    · rw [if_pos hk] at h
      rw [List.cons_append, lookup_cons, if_pos hk]
      exact h
    · rw [if_neg hk] at h
      rw [List.cons_append, lookup_cons, if_neg hk]
      exact ih h

theorem lookup_avg_entries (ls : List KVCacheState) (i : Nat)
    (n1 n2 : String) (v : ℚ) (h : (StatKey.avg n2 == StatKey.avg n1) = false) :
    (statEntries ls i ++ [(StatKey.avg n1, v)]).lookup (StatKey.avg n2) = none := by
  rw [lookup_append_of_none _ _ _ (statEntries_lookup_avg ls i n2), lookup_cons,
    if_neg (by simp_all)]
  rfl

theorem lookup_plain_entries (ls : List KVCacheState) (i : Nat)
    (n1 n2 n3 : String) (v1 v2 : ℚ) :
    ((statEntries ls i ++ [(StatKey.avg n1, v1)]) ++ [(StatKey.avg n2, v2)]).lookup
      (StatKey.plain n3) = none := by
  rw [lookup_append_of_none, lookup_cons, if_neg (by simp)]
  · rfl
  · rw [lookup_append_of_none _ _ _ (statEntries_lookup_plain ls i n3),
      lookup_cons, if_neg (by simp)]
    rfl

/-- The closed form of `get_cache_stats` on the modelled per-layer
statistics dictionaries: it never fails and produces `finalStats`. -/
theorem get_cache_stats_core_eq (sl : Nat) (ls : List KVCacheState) :
    get_cache_stats_core (ls.map (compute_statistics_assoc sl)) =
      some (finalStats ls) := by
  have hloop := layersLoop_eq sl ls 0 [] [] 0 (by intro name j hj; rfl)
  rw [get_cache_stats_core, hloop]
  cases ls with
  | nil => simp [statEntries, avgsMergeAll, finalStats, dictSet]
  | cons c rest =>
    rw [avgsMergeAll_nil _ (by simp), List.nil_append]
    simp only [List.foldl_cons, List.foldl_nil]
    rw [dictSet_of_not_mem _ _ _ (statEntries_lookup_avg _ 0 "size"),
      dictSet_of_not_mem _ _ _
        (lookup_avg_entries _ 0 "size" "capacity" _ (by decide)),
      dictSet_of_not_mem _ _ _
        (lookup_plain_entries _ 0 "size" "capacity" "cache_memory_gb" _ _)]
    simp [finalStats, List.append_assoc]

/-- Lookup of one key in the dictionary returned by `get_cache_stats`
(`none` both for a missing key and for the failure case). -/
def statLookup (m : List KVCacheState) (pl gl : Nat) (key : StatKey) :
    Option ℚ :=
  (get_cache_stats m pl gl).bind (fun d => d.lookup key)

end ColdCompress

namespace ColdCompress

/-! ### Lookups in the final statistics dictionary -/

theorem finalStats_layer_size (ls : List KVCacheState) (i : Nat)
    (hi : i < ls.length) :
    (finalStats ls).lookup (StatKey.layer "size" i) =
      some (sizeQ (ls.get ⟨i, hi⟩)) := by
  rw [finalStats]
  exact lookup_append_of_some _ _ _ _
    (by simpa using statEntries_lookup_size ls 0 i hi)

theorem finalStats_layer_cap (ls : List KVCacheState) (i : Nat)
    (hi : i < ls.length) :
    (finalStats ls).lookup (StatKey.layer "capacity" i) =
      some (capQ (ls.get ⟨i, hi⟩)) := by
  rw [finalStats]
  exact lookup_append_of_some _ _ _ _
    (by simpa using statEntries_lookup_cap ls 0 i hi)

theorem finalStats_avg_size (c : KVCacheState) (rest : List KVCacheState) :
    (finalStats (c :: rest)).lookup (StatKey.avg "size") =
      some (((c :: rest).map sizeQ).sum / (((c :: rest).length : ℚ))) := by
  rw [finalStats, lookup_append_of_none _ _ _ (statEntries_lookup_avg _ 0 _)]
  simp [lookup_cons]

theorem finalStats_avg_cap (c : KVCacheState) (rest : List KVCacheState) :
    (finalStats (c :: rest)).lookup (StatKey.avg "capacity") =
      some (((c :: rest).map capQ).sum / (((c :: rest).length : ℚ))) := by
  rw [finalStats, lookup_append_of_none _ _ _ (statEntries_lookup_avg _ 0 _)]
  simp [lookup_cons]

theorem finalStats_plain_mem (ls : List KVCacheState) :
    (finalStats ls).lookup (StatKey.plain "cache_memory_gb") =
      some ((ls.map memQ).sum) := by
  rw [finalStats, lookup_append_of_none _ _ _ (statEntries_lookup_plain _ 0 _)]
  cases ls with
  | nil => simp [lookup_cons]
  | cons c rest => simp [lookup_cons]

theorem finalStats_no_layer_mem (ls : List KVCacheState) (i : Nat) :
    (finalStats ls).lookup (StatKey.layer "cache_memory_gb" i) = none := by
  rw [finalStats, lookup_append_of_none _ _ _ (statEntries_lookup_memkey _ 0 _)]
  cases ls with
  | nil => simp [lookup_cons]
  | cons c rest => simp [lookup_cons]

theorem finalStats_no_avg_mem (ls : List KVCacheState) :
    (finalStats ls).lookup (StatKey.avg "cache_memory_gb") = none := by
  rw [finalStats, lookup_append_of_none _ _ _ (statEntries_lookup_avg _ 0 _)]
  cases ls with
  | nil => simp [lookup_cons]
  | cons c rest => simp [lookup_cons]

end ColdCompress

namespace ColdCompress

/-! ## Claim C5: shape of `get_cache_stats` -/

/-- Counterexample to claim C5 as stated: On a one-layer model, the dictionary returned
by `get_cache_stats` has NO per-layer entry and NO averaged entry for the
estimated memory footprint (the code pops `"cache_memory_gb"` from each
layer's statistics before the per-layer loop), while the claim as stated
requires both; the footprint appears only as the single total. -/
theorem cache_stats_memory_not_per_layer :
    statLookup [⟨4, 2, 1, [true, false, true, false], [0, 1, 2, 3],
        [0, 0, 0, 0]⟩] 3 1 (StatKey.layer "cache_memory_gb" 0) = none ∧
    statLookup [⟨4, 2, 1, [true, false, true, false], [0, 1, 2, 3],
        [0, 0, 0, 0]⟩] 3 1 (StatKey.avg "cache_memory_gb") = none ∧
    statLookup [⟨4, 2, 1, [true, false, true, false], [0, 1, 2, 3],
        [0, 0, 0, 0]⟩] 3 1 (StatKey.plain "cache_memory_gb") = some 4 := by
  refine ⟨rfl, rfl, ?_⟩
  rw [statLookup, get_cache_stats, get_cache_stats_core_eq, Option.some_bind,
    finalStats_plain_mem]
  norm_num [memQ, sizeQ, capQ, cacheOccupancy]

/-- Claim C5, amended: For every model and final sequence length
(`prompt_len + gen_len`), `get_cache_stats` returns, for each per-layer
statistic other than the estimated memory footprint, an entry keyed by
layer index for every layer and an averaged-across-layers entry equal to
the arithmetic mean of the per-layer values; the memory footprint appears
only as the single total entry `cache_memory_gb`, equal to the sum over
layers of each layer's footprint, with no per-layer and no averaged
memory entries. -/
theorem cache_stats_shape (m : List KVCacheState) (pl gl : Nat) (i : Nat)
    (hi : i < m.length) :
    statLookup m pl gl (StatKey.layer "size" i) = some (sizeQ (m.get ⟨i, hi⟩)) ∧
    statLookup m pl gl (StatKey.layer "capacity" i) = some (capQ (m.get ⟨i, hi⟩)) ∧
    statLookup m pl gl (StatKey.avg "size") =
      some ((m.map sizeQ).sum / (m.length : ℚ)) ∧
    statLookup m pl gl (StatKey.avg "capacity") =
      some ((m.map capQ).sum / (m.length : ℚ)) ∧
    statLookup m pl gl (StatKey.plain "cache_memory_gb") =
      some ((m.map memQ).sum) ∧
    statLookup m pl gl (StatKey.layer "cache_memory_gb" i) = none ∧
    statLookup m pl gl (StatKey.avg "cache_memory_gb") = none := by
  have hcore : get_cache_stats m pl gl = some (finalStats m) :=
    get_cache_stats_core_eq (pl + gl) m
  have hbind : ∀ key, statLookup m pl gl key = (finalStats m).lookup key := by
    intro key
    rw [statLookup, hcore, Option.some_bind]
  obtain ⟨c, rest, rfl⟩ : ∃ c rest, m = c :: rest := by
    cases m with
    | nil => simp at hi
    | cons c rest => exact ⟨c, rest, rfl⟩
  refine ⟨?_, ?_, ?_, ?_, ?_, ?_, ?_⟩
  · rw [hbind]; exact finalStats_layer_size _ i hi
  · rw [hbind]; exact finalStats_layer_cap _ i hi
  · rw [hbind]; exact finalStats_avg_size c rest
  · rw [hbind]; exact finalStats_avg_cap c rest
  · rw [hbind]; exact finalStats_plain_mem _
  · rw [hbind]; exact finalStats_no_layer_mem _ i
  · rw [hbind]; exact finalStats_no_avg_mem _

/-- Witness for C5 (amended) on a concrete two-layer model. -/
theorem cache_stats_shape_witness :
    statLookup [⟨4, 2, 1, [true, false, true, false], [0, 1, 2, 3],
        [0, 0, 0, 0]⟩, ⟨2, 2, 1, [true, true], [0, 1], [0, 0]⟩] 3 1
      (StatKey.layer "size" 1) = some 2 ∧
    statLookup [⟨4, 2, 1, [true, false, true, false], [0, 1, 2, 3],
        [0, 0, 0, 0]⟩, ⟨2, 2, 1, [true, true], [0, 1], [0, 0]⟩] 3 1
      (StatKey.avg "size") = some 2 := by
  have h := cache_stats_shape
    [⟨4, 2, 1, [true, false, true, false], [0, 1, 2, 3], [0, 0, 0, 0]⟩,
     ⟨2, 2, 1, [true, true], [0, 1], [0, 0]⟩] 3 1 1 (by decide)
  refine ⟨?_, ?_⟩
  · rw [h.1]; norm_num [sizeQ, cacheOccupancy]
  · rw [h.2.2.1]; norm_num [sizeQ, cacheOccupancy]

end ColdCompress

namespace ColdCompress

/-! ## Claim C7: reset idempotence and empty-cache statistics -/

theorem count_true_replicate_false (n : Nat) :
    (List.replicate n false).count true = 0 := by
  induction n with
  | zero => rfl
  | succ k ih => simp [List.replicate, List.count_cons, ih]

/-- Claim C7: Resetting twice yields the same empty state as resetting once
(per layer, `reset` rewrites the validity mask and auxiliary state to
constants of the immutable capacity, so it is idempotent); after a reset
every layer has zero occupancy and zero estimated memory, the statistics
computation succeeds (`isSome`), the reported memory total is zero and
every per-layer size entry is zero. -/
theorem reset_idempotent_zero_stats (m : List KVCacheState) (pl gl : Nat) :
    reset_caches (reset_caches m) = reset_caches m ∧
    (∀ c ∈ reset_caches m, cacheOccupancy c = 0 ∧ memQ c = 0) ∧
    (get_cache_stats (reset_caches m) pl gl).isSome = true ∧
    statLookup (reset_caches m) pl gl (StatKey.plain "cache_memory_gb") =
      some 0 ∧
    (∀ i, (hi : i < (reset_caches m).length) →
      statLookup (reset_caches m) pl gl (StatKey.layer "size" i) = some 0) := by
  have hmem : ∀ c ∈ reset_caches m, cacheOccupancy c = 0 ∧ memQ c = 0 := by
    intro c hc
    obtain ⟨x, hx, rfl⟩ := List.mem_map.mp hc
    have h0 : cacheOccupancy (resetCache x) = 0 := by
      simp [cacheOccupancy, resetCache, count_true_replicate_false]
    refine ⟨h0, ?_⟩
    simp [memQ, sizeQ, h0]
  have hcore : get_cache_stats (reset_caches m) pl gl =
      some (finalStats (reset_caches m)) :=
    get_cache_stats_core_eq (pl + gl) (reset_caches m)
  refine ⟨?_, hmem, ?_, ?_, ?_⟩
  · simp only [reset_caches, List.map_map]
    exact List.map_congr_left (fun c _ => rfl)
  · rw [hcore]; rfl
  · rw [statLookup, hcore, Option.some_bind, finalStats_plain_mem]
    have : ((reset_caches m).map memQ).sum = 0 := by
      refine List.sum_eq_zero ?_
      intro x hx
      obtain ⟨c, hc, rfl⟩ := List.mem_map.mp hx
      exact (hmem c hc).2
    rw [this]
  · intro i hi
    rw [statLookup, hcore, Option.some_bind, finalStats_layer_size _ i hi]
    have hc : (reset_caches m).get ⟨i, hi⟩ ∈ reset_caches m :=
      List.get_mem _ i hi
    have h0 := (hmem _ hc).1
    simp only [List.get_eq_getElem] at h0
    simp [sizeQ, h0]

/-- Witness for C7 on a concrete one-layer model with a dirty cache. -/
theorem reset_idempotent_zero_stats_witness :
    reset_caches (reset_caches [⟨3, 2, 1, [true], [5], [1]⟩]) =
      reset_caches [⟨3, 2, 1, [true], [5], [1]⟩] ∧
    statLookup (reset_caches [⟨3, 2, 1, [true], [5], [1]⟩]) 2 1
      (StatKey.plain "cache_memory_gb") = some 0 ∧
    statLookup (reset_caches [⟨3, 2, 1, [true], [5], [1]⟩]) 2 1
      (StatKey.layer "size" 0) = some 0 := by
  have h := reset_idempotent_zero_stats [⟨3, 2, 1, [true], [5], [1]⟩] 2 1
  exact ⟨h.1, h.2.2.2.1, h.2.2.2.2 0 (by decide)⟩

/-! ## Claim C8: the query operations do not change cache state -/

/-- Embedding of `Transformer.get_cache_stats` as an explicit state
transformer: the only calls it makes that touch a layer's cache are the
per-layer `compute_statistics` calls, abstracted as the parameter `f`
returning the (possibly updated) layer state and the statistics
dictionary; everything else of the method body (`pop`, the dictionary and
average building) acts on local data. -/
def get_cache_stats_st (f : KVCacheState → KVCacheState × List (String × ℚ))
    (m : List KVCacheState) :
    List KVCacheState × Option (List (StatKey × ℚ)) :=
  let pairs := m.map f
  (pairs.map Prod.fst, get_cache_stats_core (pairs.map Prod.snd))

/-- Embedding of `Transformer.prompt_cache_overflow` as a state
transformer: the body is a list comprehension reading
`kv_cache.max_cache_length` only, so the state component is returned
as-is. -/
def prompt_cache_overflow_st (m : List KVCacheState) (p : Int) :
    List KVCacheState × List Bool :=
  (m, prompt_cache_overflow m p)

/-- Embedding of `Transformer.min_cache_length` as a state transformer:
the body reads `kv_cache.max_cache_length` only. -/
def min_cache_length_st (m : List KVCacheState) :
    List KVCacheState × Option Nat :=
  (m, min_cache_length m)

/-- Claim C8: The query operations `prompt_cache_overflow`,
`min_cache_length` and `get_cache_stats` leave every layer's cache state
unchanged.  Hypothesis `hf` is modelled from the spec: `compute_statistics`
(in `cache.py`, outside the reviewed source) is "read-only and
side-effect-free"; under that contract the controller methods add no
mutation of their own. -/
theorem query_ops_pure (m : List KVCacheState) (p : Int)
    (f : KVCacheState → KVCacheState × List (String × ℚ))
    (hf : ∀ c, (f c).1 = c) :
    (get_cache_stats_st f m).1 = m ∧
    (prompt_cache_overflow_st m p).1 = m ∧
    (min_cache_length_st m).1 = m := by
  refine ⟨?_, rfl, rfl⟩
  simp only [get_cache_stats_st, List.map_map]
  have h1 : m.map (Prod.fst ∘ f) = m.map id :=
    List.map_congr_left (fun c _ => hf c)
  simpa using h1

/-- Witness for C8 with the modelled read-only `compute_statistics` on a
concrete two-layer model. -/
theorem query_ops_pure_witness :
    (get_cache_stats_st (fun c => (c, compute_statistics_assoc 3 c))
        [⟨4, 1, 1, [true], [0], [0]⟩, ⟨2, 1, 1, [], [], []⟩]).1 =
      [⟨4, 1, 1, [true], [0], [0]⟩, ⟨2, 1, 1, [], [], []⟩] ∧
    (prompt_cache_overflow_st
        [⟨4, 1, 1, [true], [0], [0]⟩, ⟨2, 1, 1, [], [], []⟩] 9).1 =
      [⟨4, 1, 1, [true], [0], [0]⟩, ⟨2, 1, 1, [], [], []⟩] := by
  have h := query_ops_pure
    [⟨4, 1, 1, [true], [0], [0]⟩, ⟨2, 1, 1, [], [], []⟩] 9
    (fun c => (c, compute_statistics_assoc 3 c)) (fun c => rfl)
  exact ⟨h.1, h.2.1⟩

end ColdCompress
